import Mathlib

/-!
A shallow embedding of the Citra kernel shared-memory subsystem
(`src/core/hle/kernel/shared_memory.cpp`) together with proofs of the
specification's testable properties.

Machine integers (`u32`, `VAddr`) are embedded as `Nat` with explicit
`% 2^32` at the points where the C++ code performs 32-bit arithmetic.
External collaborators that are not part of the translated source (the
physical-region allocator, the per-process virtual address space manager,
and the memory-layout constants from `core/memory.h`) are modelled from
the specification's description of their consumed interfaces; each such
definition carries a doc comment saying so.
-/

deriving instance DecidableEq for Except

namespace Kernel

/-- 2^32; modulus for the 32-bit (`u32`/`VAddr`) arithmetic of the source. -/
def u32Mod : Nat := 4294967296

/-- 32-bit complement, as in the source's `~static_cast<u32>(x)`. -/
def u32not (x : Nat) : Nat := Nat.xor 4294967295 x

/-- Modelled from the spec: `Memory::HEAP_VADDR` from the repository's
memory-layout header (`core/memory.h`, not under `src/`): start of the
application heap / lower bound of the legal shared-memory band. -/
def HEAP_VADDR : Nat := 0x08000000

/-- Modelled from the spec: `Memory::SHARED_MEMORY_VADDR_END` from the
repository's memory-layout header (not under `src/`): end of the legal
shared-memory virtual-address band. -/
def SHARED_MEMORY_VADDR_END : Nat := 0x14000000

/-- Modelled from the spec: `Memory::LINEAR_HEAP_VADDR` from the
repository's memory-layout header (not under `src/`): base of the legacy
linear-heap virtual region. -/
def LINEAR_HEAP_VADDR : Nat := 0x14000000

/-- `MemoryPermission::DontCare` (= 0x10000000), the sentinel meaning
"no cross-process permission requirement". -/
def permDontCare : Nat := 0x10000000

/-- `MemoryPermission::ReadWrite` (= Read | Write = 3). -/
def permReadWrite : Nat := 3

/-- `MemoryPermission::ReadWriteExecute` (= 7), the mask used by
`SharedMemory::ConvertPermissions`. -/
def permReadWriteExecute : Nat := 7

/-- The result codes `Map`/`CreateSharedMemory` can produce.  The concrete
`ResultCode` bit patterns live in `errors.h` (not under `src/`); the spec's
error taxonomy only requires the four recoverable kinds to be distinct,
so they are embedded as distinct constructors. -/
inductive ResultCode where
  | success
  | invalidCombination
  | wrongPermission
  | invalidAddress
  | invalidAddressState
  deriving DecidableEq

/-- Memory states of a virtual range (`MemoryState` in the source);
only the constructors this core uses are embedded. -/
inductive MemoryState where
  | free
  | priv
  | shared
  | locked
  deriving DecidableEq

/-- Types of a virtual memory area (`VMAType` in the source). -/
inductive VMAType where
  | free
  | allocatedMemoryBlock
  | backingMemory
  | mmio
  deriving DecidableEq

/-- A virtual-memory-area descriptor as consumed by `Map` through
`FindVMA` (spec: "region descriptor type, base, size"). -/
structure VMA where
  base : Nat
  size : Nat
  vtype : VMAType
  deriving DecidableEq

/-- One virtual-to-physical binding recorded by the success path of `Map`
(`MapBackingMemory` followed by `Reprotect`): virtual address, physical
offset, length, memory state and final protection. -/
structure MappingEntry where
  vaddr : Nat
  phys : Nat
  len : Nat
  mstate : MemoryState
  vperm : Nat
  deriving DecidableEq

/-- Modelled from the spec: the face of a target process that `Map`
consumes (§6) — a process id for the owner-pointer comparison, the VMA
layout for `FindVMA`, and the list of bindings made so far for
`MapBackingMemory`/`Reprotect`. -/
structure ProcessState where
  pid : Nat
  vmas : List VMA
  mappings : List MappingEntry
  deriving DecidableEq

/-- The shared-memory kernel object (fields of `SharedMemory`).  Physical
pointers (`u8*` into `fcram`) are embedded as physical offsets.
`freshly_allocated` is a ghost provenance flag, not present in the C++
object: it records whether the creation branch that produced the object
allocated its storage (fresh-allocation and applet branches) or borrowed
it from an existing mapping. -/
structure SharedMemoryObj where
  owner_process : Option Nat
  name : String
  size : Nat
  permissions : Nat
  other_permissions : Nat
  base_address : Nat
  backing_blocks : List (Nat × Nat)
  holding_memory : List (Nat × Nat)
  linear_heap_phys_offset : Nat
  freshly_allocated : Bool
  deriving DecidableEq

/-- `SharedMemory::ConvertPermissions`: mask the kernel permission to the
valid `VMAPermission` bit range (`& ReadWriteExecute`). -/
def convertPermissions (permission : Nat) : Nat :=
  Nat.land permission permReadWriteExecute

/-- The resolved default-permission set of `Map`'s first step:
`&target_process == owner_process ? this->permissions : this->other_permissions`.
Processes are compared by id (a null owner compares unequal to every
process, as in the source's pointer comparison). -/
def resolvedPermissions (obj : SharedMemoryObj) (target : ProcessState) : Nat :=
  if obj.owner_process = some target.pid then obj.permissions else obj.other_permissions

/-- Modelled from the spec: `AddressSpaceManager.FindVMA` (§6), the lookup
of the region descriptor covering an address; the manager itself is not
under `src/`. -/
def findVMA (target : ProcessState) (a : Nat) : Option VMA :=
  target.vmas.find? (fun v => decide (v.base ≤ a ∧ a < v.base + v.size))

/-- The effective target address of `Map` (§4.2 step 7): when both the
object's `base_address` and the requested address are zero, synthesize
the legacy linear-heap placement. -/
def effectiveTargetAddress (obj : SharedMemoryObj) (address : Nat) : Nat :=
  if obj.base_address = 0 ∧ address = 0 then
    (obj.linear_heap_phys_offset + LINEAR_HEAP_VADDR) % u32Mod
  else address

/-- The success path of `Map`: bind each backing extent at consecutive
virtual addresses (`MapBackingMemory` with state `Shared`), reprotect it
to the converted requested permission, and advance the cursor. -/
def applyBlocks (permissions : Nat) : ProcessState → Nat → List (Nat × Nat) → ProcessState
  | s, _, [] => s
  | s, t, (p, len) :: tl =>
    applyBlocks permissions
      { s with mappings := s.mappings ++
          [{ vaddr := t, phys := p, len := len, mstate := .shared,
             vperm := convertPermissions permissions }] }
      ((t + len) % u32Mod) tl

/-- `SharedMemory::Map`.  Returns the result code together with the
(possibly updated) target-process state and the object; every error
branch of the source returns before any mutation, and the source never
writes to the object's fields, which the embedding mirrors by returning
`target` and `obj` unchanged on those paths. -/
def SharedMemory.map (obj : SharedMemoryObj) (target : ProcessState)
    (address permissions other_permissions : Nat) :
    ResultCode × ProcessState × SharedMemoryObj :=
  if obj.base_address = 0 ∧ other_permissions ≠ permDontCare then
    (.invalidCombination, target, obj)
  else if Nat.land permissions (u32not (resolvedPermissions obj target)) ≠ 0 then
    (.invalidCombination, target, obj)
  else if obj.base_address ≠ 0 ∧ other_permissions = permDontCare then
    (.invalidCombination, target, obj)
  else if other_permissions ≠ permDontCare ∧
      Nat.land obj.permissions (u32not other_permissions) ≠ 0 then
    (.wrongPermission, target, obj)
  else if address ≠ 0 ∧
      (address < HEAP_VADDR ∨ SHARED_MEMORY_VADDR_END ≤ (address + obj.size) % u32Mod) then
    (.invalidAddress, target, obj)
  else
    match findVMA target (effectiveTargetAddress obj address) with
    | some vma =>
      if vma.vtype ≠ VMAType.free ∨
          (vma.base + vma.size) % u32Mod <
            (effectiveTargetAddress obj address + obj.size) % u32Mod then
        (.invalidAddressState, target, obj)
      else
        (.success,
         applyBlocks permissions target (effectiveTargetAddress obj address) obj.backing_blocks,
         obj)
    | none => (.invalidAddressState, target, obj)

/-- The conjunction of §4.2's permission checks (steps 2–5) passing, i.e.
`Map` reaches the address checks. -/
def permChecksPass (obj : SharedMemoryObj) (target : ProcessState)
    (permissions other_permissions : Nat) : Prop :=
  ¬(obj.base_address = 0 ∧ other_permissions ≠ permDontCare) ∧
  Nat.land permissions (u32not (resolvedPermissions obj target)) = 0 ∧
  ¬(obj.base_address ≠ 0 ∧ other_permissions = permDontCare) ∧
  ¬(other_permissions ≠ permDontCare ∧
      Nat.land obj.permissions (u32not other_permissions) ≠ 0)

instance (obj : SharedMemoryObj) (target : ProcessState) (p o : Nat) :
    Decidable (permChecksPass obj target p o) := by
  unfold permChecksPass; infer_instance

/-- Modelled from the spec: one pool of the `PhysicalRegionAllocator`
(§6, `MemoryRegionInfo` — not under `src/`): a free list of disjoint
half-open `lower, upper` intervals plus a used-byte counter.
`allocatedLog` and `freed` are ghost accounting lists recording, in
order, the `offset, size` pairs handed out by allocations and received
by `Free` calls; they exist only to state allocation/free symmetry. -/
structure RegionState where
  free_blocks : List (Nat × Nat)
  used : Nat
  allocatedLog : List (Nat × Nat)
  freed : List (Nat × Nat)
  deriving DecidableEq

/-- Modelled from the spec: first-fit linear allocation over the free
list — returns the lower bound of the first free block that can hold
`size` and removes the allocated prefix from it. -/
def linAlloc : List (Nat × Nat) → Nat → Option (Nat × List (Nat × Nat))
  | [], _ => none
  | (l, u) :: tl, sz =>
    if sz ≤ u - l then
      some (l, if l + sz = u then tl else (l + sz, u) :: tl)
    else
      (linAlloc tl sz).map (fun r => (r.1, (l, u) :: r.2))

/-- Modelled from the spec: `LinearAllocate(size) -> optional offset`
(§6); on success the region's free list shrinks, `used` grows and the
allocation is logged. -/
def RegionState.linearAllocate (r : RegionState) (size : Nat) :
    Option (Nat × RegionState) :=
  (linAlloc r.free_blocks size).map (fun p =>
    (p.1, { r with free_blocks := p.2, used := r.used + size,
                   allocatedLog := r.allocatedLog ++ [(p.1, size)] }))

/-- Modelled from the spec: the greedy walk of heap-style allocation —
take as much as possible from each free block in order until `size`
bytes are gathered; returns the taken intervals, the remaining free
list and the unsatisfied remainder. -/
def heapTake : List (Nat × Nat) → Nat → List (Nat × Nat) × List (Nat × Nat) × Nat
  | fbs, 0 => ([], fbs, 0)
  | [], rest => ([], [], rest)
  | (l, u) :: tl, rest =>
    let alloc := min rest (u - l)
    let r := heapTake tl (rest - alloc)
    ((if alloc = 0 then r.1 else (l, l + alloc) :: r.1),
     (if l + alloc < u then [(l + alloc, u)] else []) ++ r.2.1,
     r.2.2)

/-- Modelled from the spec: `HeapAllocate(size) -> list of physical
intervals, empty on failure` (§6); may return several disjoint
intervals; on failure the region is left untouched. -/
def RegionState.heapAllocate (r : RegionState) (size : Nat) :
    List (Nat × Nat) × RegionState :=
  let t := heapTake r.free_blocks size
  if size = 0 ∨ t.2.2 ≠ 0 then ([], r)
  else (t.1,
    { r with free_blocks := t.2.1, used := r.used + size,
             allocatedLog := r.allocatedLog ++ t.1.map (fun iv => (iv.1, iv.2 - iv.1)) })

/-- Modelled from the spec: `Free(offset, size)` (§6): return the exact
interval to the free list and log the call. -/
def RegionState.free (r : RegionState) (offset size : Nat) : RegionState :=
  { r with free_blocks := (offset, offset + size) :: r.free_blocks,
           used := r.used - size,
           freed := r.freed ++ [(offset, size)] }

/-- Sum of the bytes this region's allocator has handed out (ghost). -/
def RegionState.allocatedBytes (r : RegionState) : Nat :=
  (r.allocatedLog.map Prod.snd).sum

/-- Sum of the bytes returned to this region's allocator (ghost). -/
def RegionState.freedBytes (r : RegionState) : Nat :=
  (r.freed.map Prod.snd).sum

/-- The named physical regions (`MemoryRegion` in the source; the spec's
"named pool (e.g., system, application)"). -/
inductive MemoryRegion where
  | application
  | system
  | baseRegion
  deriving DecidableEq

/-- The kernel-wide allocator state: one `RegionState` per named region. -/
structure KernelState where
  application : RegionState
  system : RegionState
  baseRegion : RegionState
  deriving DecidableEq

/-- `KernelSystem::GetMemoryRegion`. -/
def KernelState.getRegion (k : KernelState) : MemoryRegion → RegionState
  | .application => k.application
  | .system => k.system
  | .baseRegion => k.baseRegion

/-- Replace one named region's state. -/
def KernelState.setRegion (k : KernelState) : MemoryRegion → RegionState → KernelState
  | .application, r => { k with application := r }
  | .system, r => { k with system := r }
  | .baseRegion, r => { k with baseRegion := r }

/-- The state/protection pair of the owner's virtual range
`base_address, base_address + size` that borrow-creation locks and the
destructor restores. -/
structure OwnerRange where
  mstate : MemoryState
  vperm : Nat
  deriving DecidableEq

/-- Modelled from the spec: the face of the owner process consumed by the
creation paths and the destructor (§6): its id, the tracked memory-used
counter, the state of the borrowed source range, and the physical extents
backing that range (what `GetBackingBlocksForRange` reads back). -/
structure OwnerProc where
  pid : Nat
  memory_used : Nat
  range : OwnerRange
  rangeBacking : List (Nat × Nat)
  deriving DecidableEq

/-- Modelled from the spec: `AddressSpaceManager.ChangeMemoryState
(address, size, expectedOldState, expectedOldProt, newState, newProt)
-> result` (§6), restricted to the one range this core touches: the
range must currently have the expected state and at least the expected
protection (so expected protection `None` checks nothing), and is then
transitioned to the new state and protection; otherwise an error result
is returned and nothing changes. -/
def changeMemoryState (r : OwnerRange) (expState : MemoryState) (expPerm : Nat)
    (newState : MemoryState) (newPerm : Nat) : Except ResultCode OwnerRange :=
  if r.mstate = expState ∧ Nat.land expPerm (u32not r.vperm) = 0 then
    .ok { mstate := newState, vperm := newPerm }
  else
    .error .invalidAddressState

/-- `KernelSystem::CreateSharedMemory`.  The outer `Option` is the fatal
channel: `none` models the `ASSERT_MSG` stop on allocation exhaustion and
the undefined behaviour of dereferencing a null `owner_process` in the
borrow branch; `some (.error e)` is the recoverable `CASCADE_CODE` exit;
`some (.ok _)` carries the object, the updated allocator state and the
updated owner.  Interval insertion into `holding_memory` mirrors the
interval-set semantics of the source (`+=` of an empty or reversed
right-open interval is a no-op). -/
def KernelSystem.createSharedMemory (k : KernelState) (owner : Option OwnerProc)
    (size permissions other_permissions address : Nat) (region : MemoryRegion)
    (name : String) :
    Option (Except ResultCode (SharedMemoryObj × KernelState × Option OwnerProc)) :=
  if address = 0 then
    match (k.getRegion region).linearAllocate size with
    | none => none
    | some (offset, r') =>
      some (.ok
        ({ owner_process := owner.map (fun p => p.pid)
           name := name
           size := size
           permissions := permissions
           other_permissions := other_permissions
           base_address := address
           backing_blocks := [(offset, size)]
           holding_memory :=
             if offset < (offset + size) % u32Mod then
               [(offset, (offset + size) % u32Mod)]
             else []
           linear_heap_phys_offset := offset
           freshly_allocated := true },
         k.setRegion region r',
         owner.map (fun p => { p with memory_used := p.memory_used + size })))
  else
    match owner with
    | none => none
    | some p =>
      match changeMemoryState p.range .priv permReadWrite .locked
          (convertPermissions permissions) with
      | .error e => some (.error e)
      | .ok rng' =>
        some (.ok
          ({ owner_process := some p.pid
             name := name
             size := size
             permissions := permissions
             other_permissions := other_permissions
             base_address := address
             backing_blocks := p.rangeBacking
             holding_memory := []
             linear_heap_phys_offset := 0
             freshly_allocated := false },
           k,
           some { p with range := rng' }))

/-- `KernelSystem::CreateSharedMemoryForApplet`: heap-allocate from the
system region (fatal `none` when the allocation comes back empty), record
the intervals in both `holding_memory` and `backing_blocks`, attach no
owner, and place the base address at the fixed heap base plus the
caller-supplied offset. -/
def KernelSystem.createSharedMemoryForApplet (k : KernelState)
    (offset size permissions other_permissions : Nat) (name : String) :
    Option (SharedMemoryObj × KernelState) :=
  let a := (k.getRegion .system).heapAllocate size
  if a.1 = [] then none
  else
    some
      ({ owner_process := none
         name := name
         size := size
         permissions := permissions
         other_permissions := other_permissions
         base_address := (HEAP_VADDR + offset) % u32Mod
         backing_blocks := a.1.map (fun iv => (iv.1, iv.2 - iv.1))
         holding_memory := a.1
         linear_heap_phys_offset := 0
         freshly_allocated := true },
       k.setRegion .system a.2)

/-- `SharedMemory::~SharedMemory`: free every interval of
`holding_memory` back to the SYSTEM region, then — only when
`base_address` is nonzero and the owner reference is non-null — ask the
owner's address space to transition the borrowed range from
`Locked`/`None` back to `Private`/`ReadWrite` (the call's result is
discarded, as in the source).  An absent owner is returned untouched:
the restoration is skipped without any owner dereference. -/
def SharedMemory.destroy (obj : SharedMemoryObj) (k : KernelState)
    (owner : Option OwnerProc) : KernelState × Option OwnerProc :=
  let k' := obj.holding_memory.foldl
    (fun kk iv =>
      kk.setRegion .system ((kk.getRegion .system).free iv.1 (iv.2 - iv.1))) k
  let owner' :=
    if obj.base_address ≠ 0 then
      match owner with
      | none => none
      | some p =>
        match changeMemoryState p.range .locked 0 .priv permReadWrite with
        | .ok rng' => some { p with range := rng' }
        | .error _ => some p
    else owner
  (k', owner')

/-! ## General lemmas about `Map` -/

/-- `Map` never writes to the shared-memory object: every branch returns
it unchanged. -/
theorem map_obj_eq (obj : SharedMemoryObj) (target : ProcessState)
    (address permissions other_permissions : Nat) :
    (SharedMemory.map obj target address permissions other_permissions).2.2 = obj := by
  unfold SharedMemory.map
  split_ifs <;> try rfl
  split
  · split_ifs <;> rfl
  · rfl

/-- On every non-success branch, `Map` returns the target-process state
it was given. -/
theorem map_target_eq_of_error (obj : SharedMemoryObj) (target : ProcessState)
    (address permissions other_permissions : Nat)
    (h : (SharedMemory.map obj target address permissions other_permissions).1 ≠
          ResultCode.success) :
    (SharedMemory.map obj target address permissions other_permissions).2.1 = target := by
  unfold SharedMemory.map at h ⊢
  split_ifs at h ⊢ <;> try rfl
  rcases hf : findVMA target (effectiveTargetAddress obj address) with _ | vma
  · simp [hf]
  · simp only [hf] at h ⊢
    split_ifs at h ⊢ <;> first | rfl | simp_all

/-! ## Claim theorems -/

/-- Claim C1: `Map` succeeds only if the requested permissions are a
subset of the resolved default-permission set (`this.permissions` for the
owner, `this.other_permissions` otherwise) — a violation always yields
the invalid-combination error — and, when the caller-supplied
`other_permissions` is not `DontCare`, only if the object's own
permissions are a subset of it; a violation of the latter check (reached
when the earlier checks pass) yields the distinct wrong-permission
error, which differs from invalid-combination. -/
theorem map_permission_subset_law (obj : SharedMemoryObj) (target : ProcessState)
    (address permissions other_permissions : Nat) :
    ((SharedMemory.map obj target address permissions other_permissions).1 =
        ResultCode.success →
      Nat.land permissions (u32not (resolvedPermissions obj target)) = 0 ∧
      (other_permissions ≠ permDontCare →
        Nat.land obj.permissions (u32not other_permissions) = 0)) ∧
    (Nat.land permissions (u32not (resolvedPermissions obj target)) ≠ 0 →
      (SharedMemory.map obj target address permissions other_permissions).1 =
        ResultCode.invalidCombination) ∧
    (obj.base_address ≠ 0 →
      Nat.land permissions (u32not (resolvedPermissions obj target)) = 0 →
      other_permissions ≠ permDontCare →
      Nat.land obj.permissions (u32not other_permissions) ≠ 0 →
      (SharedMemory.map obj target address permissions other_permissions).1 =
        ResultCode.wrongPermission ∧
      ResultCode.wrongPermission ≠ ResultCode.invalidCombination) := by
  refine ⟨?_, ?_, ?_⟩
  · intro hs
    unfold SharedMemory.map at hs
    split_ifs at hs with h1 h2 h3 h4 h5 <;>
      first
        | (simp at hs; done)
        | (push_neg at h2 h4; exact ⟨h2, h4⟩)
  · intro hperm
    unfold SharedMemory.map
    split_ifs <;> simp_all
  · intro h1 h2 h3 h4
    unfold SharedMemory.map
    split_ifs <;> simp_all

/-- Claim C1 witness: a borrowed object whose own permissions (Write) are
not a subset of the caller-supplied other-permissions (Read) is rejected
with the wrong-permission error. -/
def wBorrowObj : SharedMemoryObj :=
  { owner_process := none, name := "w", size := 4096, permissions := 2,
    other_permissions := 3, base_address := 0x09000000,
    backing_blocks := [(0, 4096)], holding_memory := [],
    linear_heap_phys_offset := 0, freshly_allocated := false }

/-- A target process with one all-covering free VMA. -/
def wProcFree : ProcessState :=
  { pid := 7, vmas := [{ base := 0, size := 0x20000000, vtype := .free }],
    mappings := [] }

/-- Claim C1 witness. -/
theorem map_permission_subset_law_witness :
    (SharedMemory.map wBorrowObj wProcFree 0x09000000 1 1).1 =
      ResultCode.wrongPermission :=
  ((map_permission_subset_law wBorrowObj wProcFree 0x09000000 1 1).2.2
    (by decide) (by decide) (by decide) (by decide)).1

/-- Claim C2: a freshly-allocated object (`base_address = 0`) never
succeeds a `Map` call whose `other_permissions` is not `DontCare`, and a
borrowed object (`base_address ≠ 0`) never succeeds one whose
`other_permissions` is `DontCare`; both violations are rejected with the
invalid-combination error. -/
theorem map_dontcare_exclusivity (obj : SharedMemoryObj) (target : ProcessState)
    (address permissions other_permissions : Nat) :
    (obj.base_address = 0 → other_permissions ≠ permDontCare →
      (SharedMemory.map obj target address permissions other_permissions).1 =
        ResultCode.invalidCombination) ∧
    (obj.base_address ≠ 0 → other_permissions = permDontCare →
      (SharedMemory.map obj target address permissions other_permissions).1 =
        ResultCode.invalidCombination) := by
  constructor
  · intro h1 h2
    unfold SharedMemory.map
    split_ifs <;> simp_all
  · intro h1 h2
    unfold SharedMemory.map
    split_ifs <;> simp_all

/-- A freshly-allocated object fixture. -/
def wFreshObj : SharedMemoryObj :=
  { owner_process := none, name := "w", size := 4096, permissions := 3,
    other_permissions := 3, base_address := 0,
    backing_blocks := [(0, 4096)], holding_memory := [(0, 4096)],
    linear_heap_phys_offset := 0, freshly_allocated := true }

/-- Claim C2 witness. -/
theorem map_dontcare_exclusivity_witness :
    (SharedMemory.map wFreshObj wProcFree 0 1 3).1 = ResultCode.invalidCombination ∧
    (SharedMemory.map wBorrowObj wProcFree 0 2 permDontCare).1 =
      ResultCode.invalidCombination :=
  ⟨(map_dontcare_exclusivity wFreshObj wProcFree 0 1 3).1 (by decide) (by decide),
   (map_dontcare_exclusivity wBorrowObj wProcFree 0 2 permDontCare).2
     (by decide) (by decide)⟩

/-- Claim C5: whenever `Map` returns one of the recoverable error kinds
(anything other than success), no state has been mutated: the returned
target-process state and shared-memory object are exactly the ones passed
in. -/
theorem map_error_no_mutation (obj : SharedMemoryObj) (target : ProcessState)
    (address permissions other_permissions : Nat)
    (h : (SharedMemory.map obj target address permissions other_permissions).1 ≠
          ResultCode.success) :
    (SharedMemory.map obj target address permissions other_permissions).2.1 = target ∧
    (SharedMemory.map obj target address permissions other_permissions).2.2 = obj :=
  ⟨map_target_eq_of_error obj target address permissions other_permissions h,
   map_obj_eq obj target address permissions other_permissions⟩

/-- Claim C5 witness: a rejected call (invalid combination) leaves both
the process state and the object untouched. -/
theorem map_error_no_mutation_witness :
    (SharedMemory.map wFreshObj wProcFree 0 1 3).2.1 = wProcFree ∧
    (SharedMemory.map wFreshObj wProcFree 0 1 3).2.2 = wFreshObj :=
  map_error_no_mutation wFreshObj wProcFree 0 1 3 (by decide)

/-- Claim C3: once the permission checks and the address-band check have
passed, `Map` succeeds exactly when the VMA found covering the effective
target address is free and its bounds contain the whole requested range;
in every other case it returns the invalid-address-state error. -/
theorem map_address_containment (obj : SharedMemoryObj) (target : ProcessState)
    (address permissions other_permissions : Nat)
    (hperm : permChecksPass obj target permissions other_permissions)
    (hband : ¬(address ≠ 0 ∧
        (address < HEAP_VADDR ∨ SHARED_MEMORY_VADDR_END ≤ (address + obj.size) % u32Mod))) :
    ((SharedMemory.map obj target address permissions other_permissions).1 =
        ResultCode.success ↔
      ∃ vma, findVMA target (effectiveTargetAddress obj address) = some vma ∧
        vma.vtype = VMAType.free ∧
        (effectiveTargetAddress obj address + obj.size) % u32Mod ≤
          (vma.base + vma.size) % u32Mod) ∧
    ((SharedMemory.map obj target address permissions other_permissions).1 ≠
        ResultCode.success →
      (SharedMemory.map obj target address permissions other_permissions).1 =
        ResultCode.invalidAddressState) := by
  obtain ⟨h1, h2, h3, h4⟩ := hperm
  unfold SharedMemory.map
  rw [if_neg h1, if_neg (by simpa using h2), if_neg h3, if_neg h4, if_neg hband]
  rcases hf : findVMA target (effectiveTargetAddress obj address) with _ | vma
  · simp
  · dsimp only
    split_ifs with h6
    · constructor
      · constructor
        · intro hs
          simp at hs
        · rintro ⟨vma', hv', hfree, hle⟩
          injection hv' with hv'
          subst hv'
          rcases h6 with h6 | h6
          · exact absurd hfree h6
          · omega
      · intro _
        rfl
    · push_neg at h6
      constructor
      · constructor
        · intro _
          exact ⟨vma, rfl, h6.1, Nat.le_of_not_lt (by exact fun hc => absurd hc (by
              simpa using h6.2))⟩
        · intro _
          rfl
      · intro hne
        exact absurd rfl hne

/-- Claim C3 witness: with the permission and band checks passing, a free
covering VMA lets the call succeed. -/
theorem map_address_containment_witness :
    (SharedMemory.map wFreshObj wProcFree 0 1 permDontCare).1 = ResultCode.success :=
  (map_address_containment wFreshObj wProcFree 0 1 permDontCare
      (by decide) (by decide)).1.mpr
    ⟨{ base := 0, size := 0x20000000, vtype := .free }, by decide, by decide, by decide⟩

/-- Claim C9: `Map` returns the invalid-address error exactly for calls
with a nonzero requested address whose range `address, address + size`
leaves the legal shared-memory band (below `HEAP_VADDR`, or reaching
`SHARED_MEMORY_VADDR_END` or beyond): any call that reports
invalid-address violates the band, and once the permission checks pass, a
nonzero address is reported invalid-address exactly when it violates the
band — in-band addresses pass this check. -/
theorem map_invalid_address_band (obj : SharedMemoryObj) (target : ProcessState)
    (address permissions other_permissions : Nat) :
    ((SharedMemory.map obj target address permissions other_permissions).1 =
        ResultCode.invalidAddress →
      address ≠ 0 ∧
      (address < HEAP_VADDR ∨ SHARED_MEMORY_VADDR_END ≤ (address + obj.size) % u32Mod)) ∧
    (permChecksPass obj target permissions other_permissions → address ≠ 0 →
      ((SharedMemory.map obj target address permissions other_permissions).1 =
          ResultCode.invalidAddress ↔
        (address < HEAP_VADDR ∨ SHARED_MEMORY_VADDR_END ≤ (address + obj.size) % u32Mod))) := by
  constructor
  · intro hs
    unfold SharedMemory.map at hs
    split_ifs at hs with h1 h2 h3 h4 h5
    · exact h5
    · rcases hf : findVMA target (effectiveTargetAddress obj address) with _ | vma <;>
        simp only [hf] at hs
      · simp at hs
      · split_ifs at hs
  · rintro ⟨h1, h2, h3, h4⟩ haddr
    unfold SharedMemory.map
    rw [if_neg h1, if_neg (by simpa using h2), if_neg h3, if_neg h4]
    constructor
    · intro hs
      split_ifs at hs with h5
      · exact h5.2
      · rcases hf : findVMA target (effectiveTargetAddress obj address) with _ | vma <;>
          simp only [hf] at hs
        · simp at hs
        · split_ifs at hs
    · intro hband
      rw [if_pos ⟨haddr, hband⟩]

/-- Claim C9 witness: a borrowed object mapped at an address below the
band is rejected with invalid-address. -/
theorem map_invalid_address_band_witness :
    (SharedMemory.map wBorrowObj wProcFree 0x07000000 1 3).1 =
      ResultCode.invalidAddress :=
  ((map_invalid_address_band wBorrowObj wProcFree 0x07000000 1 3).2
      (by decide) (by decide)).mpr (Or.inl (by decide))

/-- Claim C4: when both the object's `base_address` and the requested
address are zero, the effective target address is the object's
`linear_heap_phys_offset` plus the linear-heap virtual base (as a 32-bit
sum), `Map` never modifies the object, and therefore every repeated
`Map` call on the same object resolves the same synthesized address. -/
theorem map_zero_address_legacy_placement (obj : SharedMemoryObj)
    (h : obj.base_address = 0) :
    effectiveTargetAddress obj 0 =
      (obj.linear_heap_phys_offset + LINEAR_HEAP_VADDR) % u32Mod ∧
    (obj.linear_heap_phys_offset + LINEAR_HEAP_VADDR < u32Mod →
      effectiveTargetAddress obj 0 =
        obj.linear_heap_phys_offset + LINEAR_HEAP_VADDR) ∧
    (∀ target address permissions other_permissions,
      (SharedMemory.map obj target address permissions other_permissions).2.2 = obj) ∧
    (∀ target address permissions other_permissions,
      effectiveTargetAddress
        ((SharedMemory.map obj target address permissions other_permissions).2.2) 0 =
      effectiveTargetAddress obj 0) := by
  refine ⟨?_, ?_, ?_, ?_⟩
  · unfold effectiveTargetAddress
    rw [if_pos ⟨h, rfl⟩]
  · intro hlt
    unfold effectiveTargetAddress
    rw [if_pos ⟨h, rfl⟩, Nat.mod_eq_of_lt hlt]
  · intro target address permissions other_permissions
    exact map_obj_eq obj target address permissions other_permissions
  · intro target address permissions other_permissions
    rw [map_obj_eq obj target address permissions other_permissions]

/-- Claim C4 witness: the fixture object resolves address zero to the
linear-heap base, stably across a repeated call. -/
theorem map_zero_address_legacy_placement_witness :
    effectiveTargetAddress wFreshObj 0 = 0x14000000 ∧
    effectiveTargetAddress ((SharedMemory.map wFreshObj wProcFree 0 1 permDontCare).2.2) 0 =
      effectiveTargetAddress wFreshObj 0 :=
  ⟨((map_zero_address_legacy_placement wFreshObj (by decide)).2.1 (by decide)).trans
      (by decide),
   (map_zero_address_legacy_placement wFreshObj (by decide)).2.2.2
      wProcFree 0 1 permDontCare⟩

/-! ## Lemmas about the allocator model -/

/-- First-fit allocation hands out an offset whose interval stays inside
one of the (32-bit bounded) free blocks. -/
theorem linAlloc_bound : ∀ (fbs : List (Nat × Nat)) (sz off : Nat)
    (rest : List (Nat × Nat)),
    (∀ iv ∈ fbs, iv.1 < iv.2 ∧ iv.2 ≤ 4294967295) →
    linAlloc fbs sz = some (off, rest) → off + sz ≤ 4294967295
  | [], sz, off, rest, _, h => by simp [linAlloc] at h
  | (l, u) :: tl, sz, off, rest, hwf, h => by
    unfold linAlloc at h
    split_ifs at h with hle hfit
    · simp only [Option.some.injEq, Prod.mk.injEq] at h
      obtain ⟨h1, -⟩ := h
      have hb := hwf (l, u) (List.mem_cons_self _ _)
      omega
    · simp only [Option.some.injEq, Prod.mk.injEq] at h
      obtain ⟨h1, -⟩ := h
      have hb := hwf (l, u) (List.mem_cons_self _ _)
      omega
    · obtain ⟨⟨o, fb⟩, hrec, heq⟩ := Option.map_eq_some'.mp h
      simp only [Prod.mk.injEq] at heq
      obtain ⟨h1, -⟩ := heq
      have := linAlloc_bound tl sz o fb
        (fun iv hm => hwf iv (List.mem_cons_of_mem _ hm)) hrec
      omega

/-- Unpacking a successful `linearAllocate`: the underlying first-fit
result and the shape of the updated region state. -/
theorem linearAllocate_eq (r : RegionState) (size off : Nat) (r' : RegionState)
    (h : r.linearAllocate size = some (off, r')) :
    ∃ fb, linAlloc r.free_blocks size = some (off, fb) ∧
      r' = { r with free_blocks := fb, used := r.used + size,
                    allocatedLog := r.allocatedLog ++ [(off, size)] } := by
  unfold RegionState.linearAllocate at h
  obtain ⟨⟨o, fb⟩, hla, heq⟩ := Option.map_eq_some'.mp h
  simp only [Prod.mk.injEq] at heq
  obtain ⟨h1, h2⟩ := heq
  subst h1
  exact ⟨fb, hla, h2.symm⟩

/-! ## Creation / destruction claims -/

/-- Fixture kernel state: disjoint free pools in the application and
system regions, empty ghost logs. -/
def wK : KernelState :=
  { application := { free_blocks := [(0, 0x400000)], used := 0,
                     allocatedLog := [], freed := [] },
    system := { free_blocks := [(0x200000, 0x300000)], used := 0,
                allocatedLog := [], freed := [] },
    baseRegion := { free_blocks := [], used := 0, allocatedLog := [], freed := [] } }

/-- Fixture owner process with a private read-write source range. -/
def wOwner : OwnerProc :=
  { pid := 3, memory_used := 0, range := { mstate := .priv, vperm := 3 },
    rangeBacking := [(0x1000, 4096)] }

/-- The object produced by creating 4096 fresh bytes from the application
region of `wK`. -/
def c6Obj : SharedMemoryObj :=
  { owner_process := none, name := "m", size := 4096, permissions := 3,
    other_permissions := permDontCare, base_address := 0,
    backing_blocks := [(0, 4096)], holding_memory := [(0, 4096)],
    linear_heap_phys_offset := 0, freshly_allocated := true }

/-- The kernel state after that creation. -/
def c6K : KernelState :=
  { application := { free_blocks := [(4096, 0x400000)], used := 4096,
                     allocatedLog := [(0, 4096)], freed := [] },
    system := { free_blocks := [(0x200000, 0x300000)], used := 0,
                allocatedLog := [], freed := [] },
    baseRegion := { free_blocks := [], used := 0, allocatedLog := [], freed := [] } }

/-- Claim C6 counterexample: an object freshly allocated from the
APPLICATION region has its interval freed to the SYSTEM region's
allocator on destruction — the application allocator handed out 4096
bytes for the object but receives 0 bytes back (the 4096 bytes land in
the system allocator instead), refuting "the sum of bytes returned to
the physical region allocator that allocated the storage equals the sum
of bytes it allocated". -/
theorem destroy_frees_to_system_not_allocating_region :
    KernelSystem.createSharedMemory wK none 4096 3 permDontCare 0 .application "m"
      = some (.ok (c6Obj, c6K, none)) ∧
    c6K.application.allocatedBytes = 4096 ∧
    ((SharedMemory.destroy c6Obj c6K none).1.application).freedBytes = 0 ∧
    ((SharedMemory.destroy c6Obj c6K none).1.system).freed = [(0, 4096)] := by
  refine ⟨by decide, by decide, by decide, by decide⟩

/-- Claim C6 (amended): for objects created by the fresh-allocation path
from the SYSTEM region — the region the destructor frees to — destruction
frees exactly the single interval recorded in `holding_memory`, exactly
once, and the bytes returned to the system allocator equal the bytes it
allocated for the object (`size`), no range being freed twice. -/
theorem destroy_frees_allocation_exactly_once
    (k : KernelState) (owner : Option OwnerProc)
    (size permissions other_permissions : Nat) (name : String)
    (obj : SharedMemoryObj) (k' : KernelState) (owner' : Option OwnerProc)
    (hwf : ∀ iv ∈ (k.getRegion .system).free_blocks, iv.1 < iv.2 ∧ iv.2 ≤ 4294967295)
    (hs : 0 < size)
    (h : KernelSystem.createSharedMemory k owner size permissions other_permissions 0
          .system name = some (.ok (obj, k', owner'))) :
    obj.holding_memory =
      [(obj.linear_heap_phys_offset, obj.linear_heap_phys_offset + size)] ∧
    (∀ kk ow, ((SharedMemory.destroy obj kk ow).1.system).freed =
        kk.system.freed ++ [(obj.linear_heap_phys_offset, size)]) ∧
    (∀ kk ow, ((SharedMemory.destroy obj kk ow).1.application).freed =
        kk.application.freed ∧
      ((SharedMemory.destroy obj kk ow).1.baseRegion).freed = kk.baseRegion.freed) ∧
    k'.system.allocatedBytes = k.system.allocatedBytes + size := by
  unfold KernelSystem.createSharedMemory at h
  rw [if_pos rfl] at h
  rcases halloc : (k.getRegion .system).linearAllocate size with _ | ⟨off, r'⟩ <;>
    rw [halloc] at h
  · simp at h
  · simp only [Option.some.injEq, Except.ok.injEq, Prod.mk.injEq] at h
    obtain ⟨hobj, hk, -⟩ := h
    obtain ⟨fb, hla, hr'⟩ := linearAllocate_eq _ _ _ _ halloc
    have hbound := linAlloc_bound _ _ _ _ hwf hla
    have hmod : (off + size) % u32Mod = off + size :=
      Nat.mod_eq_of_lt (by unfold u32Mod; omega)
    have hhold : (if off < (off + size) % u32Mod then [(off, (off + size) % u32Mod)]
        else []) = [(off, off + size)] := by
      rw [hmod, if_pos (by omega)]
    subst hobj hk
    refine ⟨?_, ?_, ?_, ?_⟩
    · simpa [hhold]
    · intro kk ow
      simp [SharedMemory.destroy, hhold, RegionState.free, KernelState.getRegion,
        KernelState.setRegion, Nat.add_sub_cancel_left]
    · intro kk ow
      constructor <;>
        simp [SharedMemory.destroy, hhold, RegionState.free, KernelState.getRegion,
          KernelState.setRegion]
    · rw [hr']
      simp [KernelState.getRegion, KernelState.setRegion, RegionState.allocatedBytes]

/-- Claim C6 (amended) witness: creating 4096 bytes from the system
region of `wK` and destroying the object frees exactly its interval to
the system allocator. -/
theorem destroy_frees_allocation_exactly_once_witness :
    (({ owner_process := none, name := "s", size := 4096, permissions := 3,
        other_permissions := permDontCare, base_address := 0,
        backing_blocks := [(0x200000, 4096)],
        holding_memory := [(0x200000, 0x201000)],
        linear_heap_phys_offset := 0x200000,
        freshly_allocated := true } : SharedMemoryObj).holding_memory =
      [(0x200000, 0x200000 + 4096)]) :=
  (destroy_frees_allocation_exactly_once wK none 4096 3 permDontCare "s"
    { owner_process := none, name := "s", size := 4096, permissions := 3,
      other_permissions := permDontCare, base_address := 0,
      backing_blocks := [(0x200000, 4096)],
      holding_memory := [(0x200000, 0x201000)],
      linear_heap_phys_offset := 0x200000, freshly_allocated := true }
    { application := { free_blocks := [(0, 0x400000)], used := 0,
                       allocatedLog := [], freed := [] },
      system := { free_blocks := [(0x201000, 0x300000)], used := 4096,
                  allocatedLog := [(0x200000, 4096)], freed := [] },
      baseRegion := { free_blocks := [], used := 0, allocatedLog := [], freed := [] } }
    none (by decide) (by decide) (by decide)).1

/-- Claim C7: destroying an object created by the borrow-existing-mapping
path (nonzero `base_address`) with a live owner reference restores the
owner's range from locked back to private/read-write — exactly reversing
the state transition creation performed on a private/read-write range —
frees nothing, and when the owner reference is absent the restoration is
skipped entirely (the owner slot stays `none`, no owner is touched). -/
theorem destroy_restores_borrowed_range
    (k : KernelState) (p : OwnerProc)
    (size permissions other_permissions address : Nat)
    (region : MemoryRegion) (name : String)
    (obj : SharedMemoryObj) (k' : KernelState) (owner' : Option OwnerProc)
    (haddr : address ≠ 0)
    (h : KernelSystem.createSharedMemory k (some p) size permissions other_permissions
          address region name = some (.ok (obj, k', owner'))) :
    obj.base_address = address ∧
    owner' = some { p with range :=
      { mstate := .locked, vperm := convertPermissions permissions } } ∧
    (∀ kk, SharedMemory.destroy obj kk owner' =
      (kk, some { p with range := { mstate := .priv, vperm := permReadWrite } })) ∧
    (p.range = { mstate := .priv, vperm := permReadWrite } →
      ∀ kk, (SharedMemory.destroy obj kk owner').2 = some p) ∧
    (∀ kk, SharedMemory.destroy obj kk none = (kk, none)) := by
  unfold KernelSystem.createSharedMemory at h
  rw [if_neg haddr] at h
  dsimp only at h
  rcases hcms : changeMemoryState p.range .priv permReadWrite .locked
      (convertPermissions permissions) with e | rng <;> rw [hcms] at h
  · simp at h
  · simp only [Option.some.injEq, Except.ok.injEq, Prod.mk.injEq] at h
    obtain ⟨hobj, -, how⟩ := h
    unfold changeMemoryState at hcms
    split_ifs at hcms with hcond
    · injection hcms with hrng
      subst hobj how hrng
      have hrestore : changeMemoryState
          { mstate := .locked, vperm := convertPermissions permissions }
          .locked 0 .priv permReadWrite =
          .ok { mstate := .priv, vperm := permReadWrite } := by
        unfold changeMemoryState
        rw [if_pos ⟨rfl, Nat.zero_and _⟩]
      have hfull : ∀ kk, SharedMemory.destroy
          { owner_process := some p.pid, name := name, size := size,
            permissions := permissions, other_permissions := other_permissions,
            base_address := address, backing_blocks := p.rangeBacking,
            holding_memory := [], linear_heap_phys_offset := 0,
            freshly_allocated := false } kk
          (some { p with range :=
            { mstate := .locked, vperm := convertPermissions permissions } }) =
          (kk, some { p with range :=
            { mstate := .priv, vperm := permReadWrite } }) := by
        intro kk
        unfold SharedMemory.destroy
        dsimp only [List.foldl]
        rw [if_pos haddr, hrestore]
      refine ⟨rfl, rfl, hfull, ?_, ?_⟩
      · intro hp kk
        rw [hfull kk, ← hp]
      · intro kk
        simp [SharedMemory.destroy]

/-- Claim C7 witness: borrow-creating from `wOwner`'s private/read-write
range and destroying returns the owner to exactly its original state,
while an absent owner is left untouched. -/
theorem destroy_restores_borrowed_range_witness :
    (SharedMemory.destroy
      { owner_process := some 3, name := "b", size := 4096, permissions := 3,
        other_permissions := 1, base_address := 0x09000000,
        backing_blocks := [(0x1000, 4096)], holding_memory := [],
        linear_heap_phys_offset := 0, freshly_allocated := false }
      wK (some { wOwner with range := { mstate := .locked, vperm := 3 } })).2
      = some wOwner :=
  (destroy_restores_borrowed_range wK wOwner 4096 3 1 0x09000000 .application "b"
    { owner_process := some 3, name := "b", size := 4096, permissions := 3,
      other_permissions := 1, base_address := 0x09000000,
      backing_blocks := [(0x1000, 4096)], holding_memory := [],
      linear_heap_phys_offset := 0, freshly_allocated := false }
    wK (some { wOwner with range := { mstate := .locked, vperm := 3 } })
    (by decide) (by decide)).2.2.2.1 (by decide) wK

/-- The object produced by the applet creation path on `wK`. -/
def c8Obj : SharedMemoryObj :=
  { owner_process := none, name := "a", size := 4096, permissions := 3,
    other_permissions := 3, base_address := 0x08000000,
    backing_blocks := [(0x200000, 4096)], holding_memory := [(0x200000, 0x201000)],
    linear_heap_phys_offset := 0, freshly_allocated := true }

/-- The kernel state after that applet creation. -/
def c8K : KernelState :=
  { application := { free_blocks := [(0, 0x400000)], used := 0,
                     allocatedLog := [], freed := [] },
    system := { free_blocks := [(0x201000, 0x300000)], used := 4096,
                allocatedLog := [(0x200000, 4096)], freed := [] },
    baseRegion := { free_blocks := [], used := 0, allocatedLog := [], freed := [] } }

/-- Claim C8 counterexample: the applet creation path freshly allocates
its storage (nonempty `holding_memory`, to be freed at destruction), yet
sets `base_address` to the fixed heap base plus the offset — nonzero —
refuting "`base_address` is 0 if and only if the object's storage was
freshly allocated" for the applet entry point. -/
theorem applet_fresh_storage_has_nonzero_base :
    KernelSystem.createSharedMemoryForApplet wK 0 4096 3 3 "a" = some (c8Obj, c8K) ∧
    c8Obj.freshly_allocated = true ∧
    c8Obj.holding_memory ≠ [] ∧
    c8Obj.base_address = 0x08000000 := by
  refine ⟨by decide, by decide, by decide, by decide⟩

/-- Claim C8 (amended): for the two `CreateSharedMemory` paths,
`base_address` is zero exactly on the fresh-allocation path, and
`holding_memory` is nonempty exactly for freshly-allocated storage
(given a nonzero size and a well-formed free list); the applet variant
also allocates freshly and also has nonempty `holding_memory`, but its
`base_address` is the heap base plus the caller's offset, so the
`base_address = 0` criterion does not extend to it. -/
theorem creation_provenance_invariants (k : KernelState) (owner : Option OwnerProc)
    (size permissions other_permissions offset : Nat) (region : MemoryRegion)
    (name : String) :
    (∀ obj k' owner',
      KernelSystem.createSharedMemory k owner size permissions other_permissions 0
          region name = some (.ok (obj, k', owner')) →
      obj.freshly_allocated = true ∧ obj.base_address = 0 ∧
      (0 < size →
        (∀ iv ∈ (k.getRegion region).free_blocks, iv.1 < iv.2 ∧ iv.2 ≤ 4294967295) →
        obj.holding_memory ≠ [])) ∧
    (∀ address obj k' owner', address ≠ 0 →
      KernelSystem.createSharedMemory k owner size permissions other_permissions
          address region name = some (.ok (obj, k', owner')) →
      obj.freshly_allocated = false ∧ obj.base_address ≠ 0 ∧
      obj.holding_memory = []) ∧
    (∀ obj k',
      KernelSystem.createSharedMemoryForApplet k offset size permissions
          other_permissions name = some (obj, k') →
      obj.freshly_allocated = true ∧ obj.holding_memory ≠ [] ∧
      obj.base_address = (HEAP_VADDR + offset) % u32Mod) := by
  refine ⟨?_, ?_, ?_⟩
  · intro obj k' owner' h
    unfold KernelSystem.createSharedMemory at h
    rw [if_pos rfl] at h
    rcases halloc : (k.getRegion region).linearAllocate size with _ | ⟨off, r'⟩ <;>
      rw [halloc] at h
    · simp at h
    · simp only [Option.some.injEq, Except.ok.injEq, Prod.mk.injEq] at h
      obtain ⟨hobj, -, -⟩ := h
      subst hobj
      refine ⟨rfl, rfl, ?_⟩
      intro hsz hwf
      obtain ⟨fb, hla, -⟩ := linearAllocate_eq _ _ _ _ halloc
      have hbound := linAlloc_bound _ _ _ _ hwf hla
      have hmod : (off + size) % u32Mod = off + size :=
        Nat.mod_eq_of_lt (by unfold u32Mod; omega)
      simp only [hmod]
      rw [if_pos (by omega)]
      simp
  · intro address obj k' owner' haddr h
    unfold KernelSystem.createSharedMemory at h
    rw [if_neg haddr] at h
    match owner with
    | none => simp at h
    | some p =>
      dsimp only at h
      rcases hcms : changeMemoryState p.range .priv permReadWrite .locked
          (convertPermissions permissions) with e | rng <;> rw [hcms] at h
      · simp at h
      · simp only [Option.some.injEq, Except.ok.injEq, Prod.mk.injEq] at h
        obtain ⟨hobj, -, -⟩ := h
        subst hobj
        exact ⟨rfl, haddr, rfl⟩
  · intro obj k' h
    unfold KernelSystem.createSharedMemoryForApplet at h
    dsimp only at h
    split_ifs at h with hempty
    simp only [Option.some.injEq, Prod.mk.injEq] at h
    obtain ⟨hobj, -⟩ := h
    subst hobj
    exact ⟨rfl, hempty, rfl⟩

/-- Claim C8 (amended) witness: instantiating each branch on `wK`. -/
theorem creation_provenance_invariants_witness :
    c8Obj.freshly_allocated = true ∧ c8Obj.holding_memory ≠ [] ∧
    c8Obj.base_address = (HEAP_VADDR + 0) % u32Mod :=
  (creation_provenance_invariants wK none 4096 3 3 0 .system "a").2.2
    c8Obj c8K (by decide)

/-- Claim C10: `CreateSharedMemory` is total only when a nonzero source
address comes with a non-null owner — the borrow branch with a null
owner dereferences it (fatal), while with an owner present the branch
always returns (ok or a recoverable error) — and with address zero a
null owner is accepted: the allocation outcome is identical to the
owned case except that no memory-used counter is bumped and the object
records no owner. -/
theorem create_null_owner_totality (k : KernelState) (p : OwnerProc)
    (size permissions other_permissions : Nat) (region : MemoryRegion)
    (name : String) :
    (∀ address, address ≠ 0 →
      KernelSystem.createSharedMemory k none size permissions other_permissions
        address region name = none) ∧
    (∀ address, address ≠ 0 →
      KernelSystem.createSharedMemory k (some p) size permissions other_permissions
        address region name ≠ none) ∧
    ((k.getRegion region).linearAllocate size = none →
      KernelSystem.createSharedMemory k none size permissions other_permissions 0
          region name = none ∧
      KernelSystem.createSharedMemory k (some p) size permissions other_permissions 0
          region name = none) ∧
    (∀ off r', (k.getRegion region).linearAllocate size = some (off, r') →
      ∃ obj,
        KernelSystem.createSharedMemory k none size permissions other_permissions 0
            region name = some (.ok (obj, k.setRegion region r', none)) ∧
        KernelSystem.createSharedMemory k (some p) size permissions other_permissions 0
            region name = some (.ok ({ obj with owner_process := some p.pid },
              k.setRegion region r',
              some { p with memory_used := p.memory_used + size })) ∧
        obj.owner_process = none) := by
  refine ⟨?_, ?_, ?_, ?_⟩
  · intro address haddr
    unfold KernelSystem.createSharedMemory
    rw [if_neg haddr]
  · intro address haddr
    unfold KernelSystem.createSharedMemory
    rw [if_neg haddr]
    dsimp only
    rcases changeMemoryState p.range .priv permReadWrite .locked
        (convertPermissions permissions) with e | rng <;> simp
  · intro halloc
    unfold KernelSystem.createSharedMemory
    rw [if_pos rfl, if_pos rfl, halloc]
    exact ⟨rfl, rfl⟩
  · intro off r' halloc
    unfold KernelSystem.createSharedMemory
    rw [if_pos rfl, if_pos rfl, halloc]
    exact ⟨_, rfl, rfl, rfl⟩

/-- Claim C10 witness: on `wK`, a nonzero-address creation with no owner
is the fatal outcome, and the same call with `wOwner` is not. -/
theorem create_null_owner_totality_witness :
    KernelSystem.createSharedMemory wK none 4096 3 1 0x09000000 .application "n"
      = none ∧
    KernelSystem.createSharedMemory wK (some wOwner) 4096 3 1 0x09000000
      .application "n" ≠ none :=
  ⟨(create_null_owner_totality wK wOwner 4096 3 1 .application "n").1
      0x09000000 (by decide),
   (create_null_owner_totality wK wOwner 4096 3 1 .application "n").2.1
      0x09000000 (by decide)⟩

end Kernel
